import Mathlib

/-!
Shallow embedding of the grid placement and collision engine of
`src/Script.js` (katsurets/katsu_mapapp), together with proofs of the
specified properties.

Modelling conventions:
* real-valued quantities (terrain dimensions, cell size, world positions)
  are rational numbers;
* grid coordinates and terrain ids are integers;
* the rotation field is stored scaled by 1/pi: the source stores radians
  and only ever adds `Math.PI / 2` and reduces modulo `Math.PI * 2`, so in
  scaled units the operation is exactly `jsMod (r + 1/2) 2`, all rational;
* the mutable global `terrains` array together with the `grid`
  configuration object is the `State` structure, and the in-place mutation
  of a found terrain object is `replaceFirst` on the list;
* the DOM / three.js side (scene, camera, meshes, raycasting) is external:
  the world position assigned to `terrain.model.position` is kept in the
  `worldX` / `worldZ` fields, and pointer events arrive already converted
  to a candidate grid cell.
-/

namespace MapApp

/-- Grid configuration, source `grid = ...` object in src/Script.js line 4:
number of cells per axis and world units per cell. -/
structure GridConfig where
  size : Int
  cellSize : Rat
deriving DecidableEq, Repr

/-- Real-valued bounding-box dimensions of a terrain (src/Script.js
lines 174-183). -/
structure Dimensions where
  width : Rat
  depth : Rat
  height : Rat
deriving DecidableEq, Repr

/-- Integer grid cell of the minimum corner of a footprint. -/
structure GridPos where
  x : Int
  z : Int
deriving DecidableEq, Repr

/-- A terrain entry of the registry (src/Script.js lines 157-166).  The
`worldX` / `worldZ` fields model `terrain.model.position.x` and `.z`; the
`rotation` field is the source rotation divided by pi. -/
structure Terrain where
  id : Int
  name : String
  gridPosition : GridPos
  dimensions : Dimensions
  rotation : Rat
  visible : Bool
  worldX : Rat
  worldZ : Rat
deriving DecidableEq, Repr

/-- The global mutable state: grid configuration and the terrain registry
in insertion order. -/
structure State where
  grid : GridConfig
  terrains : List Terrain
deriving DecidableEq, Repr

/-- The exact ceiling of the rational quotient a / b, computed on
numerators and denominators so that it evaluates inside the kernel (the
rational field operations of the library are irreducible); the theorem
`ratDivCeil_eq` below proves it equal to the mathematical ceiling of the
quotient. -/
def ratDivCeil (a b : Rat) : Int :=
  -(Rat.divInt (-(a.num * b.den)) (b.num * a.den)).floor

/-- Footprint calculator, `Math.ceil(terrain.dimensions.width / grid.cellSize)`
(src/Script.js line 194 and elsewhere). -/
def cellsWide (g : GridConfig) (d : Dimensions) : Int :=
  ratDivCeil d.width g.cellSize

/-- Footprint calculator, `Math.ceil(terrain.dimensions.depth / grid.cellSize)`
(src/Script.js line 195 and elsewhere). -/
def cellsDeep (g : GridConfig) (d : Dimensions) : Int :=
  ratDivCeil d.depth g.cellSize

/-- The `noOverlap` disjunction of src/Script.js lines 222-226: the
candidate rectangle `(x, z, width, depth)` and the terrain rectangle
`(tx, tz, tw, td)` do not overlap. -/
def noOverlapTest (x z width depth tx tz tw td : Int) : Bool :=
  decide (x + width ≤ tx) || decide (tx + tw ≤ x) ||
  decide (z + depth ≤ tz) || decide (tz + td ≤ z)

/-- `isPositionOccupied` of src/Script.js lines 214-233: true iff the
candidate rectangle overlaps the rectangle of some terrain of the registry
whose id differs from `excludeTerrainId`. -/
def isPositionOccupied (s : State) (x z width depth excludeTerrainId : Int) : Bool :=
  s.terrains.any fun terrain =>
    if terrain.id = excludeTerrainId then false
    else
      !noOverlapTest x z width depth terrain.gridPosition.x terrain.gridPosition.z
        (cellsWide s.grid terrain.dimensions) (cellsDeep s.grid terrain.dimensions)

/-- `isValidGridPosition` of src/Script.js lines 371-377: upper bound on
both axes (no lower bound) and no collision. -/
def isValidGridPosition (s : State) (x z width depth excludeTerrainId : Int) : Bool :=
  decide (x + width ≤ s.grid.size) && decide (z + depth ≤ s.grid.size) &&
  !isPositionOccupied s x z width depth excludeTerrainId

/-- The ascending list of integers from `lo` to `hi` inclusive (empty when
`hi < lo`): the index set of a `for` loop from `lo` while `< hi + 1`. -/
def intRange (lo hi : Int) : List Int :=
  (List.range (hi + 1 - lo).toNat).map fun i : Nat => lo + (i : Int)

/-- The candidate cells scanned by `findAvailableGridPosition`
(src/Script.js lines 202-208) in scan order: outer loop `z` from
`-grid.size` while `z < grid.size - cellsDeep + 1`, inner loop `x` from
`-grid.size` while `x < grid.size - cellsWide + 1`. -/
def scanCandidates (g : GridConfig) (cw cd : Int) : List GridPos :=
  (intRange (-g.size) (g.size - cd)).flatMap fun z =>
    (intRange (-g.size) (g.size - cw)).map fun x => ⟨x, z⟩

/-- The early-returning double loop of src/Script.js lines 202-208: the
first scanned cell whose rectangle is not occupied, if any. -/
def scanFree (s : State) (terrain : Terrain) : Option GridPos :=
  let cw := cellsWide s.grid terrain.dimensions
  let cd := cellsDeep s.grid terrain.dimensions
  (scanCandidates s.grid cw cd).find? fun p =>
    !isPositionOccupied s p.x p.z cw cd terrain.id

/-- `findAvailableGridPosition` of src/Script.js lines 192-212: first free
scanned cell, with the fallback `return ⟨0, 0⟩` when the scan is
exhausted. -/
def findAvailableGridPosition (s : State) (terrain : Terrain) : GridPos :=
  (scanFree s terrain).getD ⟨0, 0⟩

/-- `updateTerrainPosition` of src/Script.js lines 235-250: recompute the
world position of the model from the grid position, centering the
real-valued footprint inside its occupied cell block. -/
def updateTerrainPosition (g : GridConfig) (terrain : Terrain) : Terrain :=
  let cw := cellsWide g terrain.dimensions
  let cd := cellsDeep g terrain.dimensions
  let offsetX := ((cw : Rat) * g.cellSize - terrain.dimensions.width) / 2
  let offsetZ := ((cd : Rat) * g.cellSize - terrain.dimensions.depth) / 2
  { terrain with
    worldX := (terrain.gridPosition.x : Rat) * g.cellSize + offsetX,
    worldZ := (terrain.gridPosition.z : Rat) * g.cellSize + offsetZ }

/-- A freshly created terrain object, `createTerrainObject` of
src/Script.js lines 157-172 (the world position of the not yet positioned
model is irrelevant and set to 0). -/
def newTerrain (id : Int) (name : String) (dims : Dimensions) : Terrain :=
  { id := id, name := name, gridPosition := ⟨0, 0⟩, dimensions := dims,
    rotation := 0, visible := true, worldX := 0, worldZ := 0 }

/-- Placement of a newly imported terrain, following `loadTerrain` and
`positionTerrainOnGrid` (src/Script.js lines 133-139 and 185-190): the
terrain is pushed into the registry first, then `findAvailableGridPosition`
is called (the pushed terrain excludes itself by id), then the grid
position is committed and the world position recomputed. -/
def placeTerrain (s : State) (id : Int) (name : String) (dims : Dimensions) : State :=
  let t0 := newTerrain id name dims
  let pushed : State := { s with terrains := s.terrains ++ [t0] }
  let pos := findAvailableGridPosition pushed t0
  let placed := updateTerrainPosition s.grid { t0 with gridPosition := pos }
  { s with terrains := s.terrains ++ [placed] }

/-- In-place mutation of the first list entry satisfying `p`, replacing it
by `t`: the JS pattern of mutating the object returned by
`terrains.find(...)` while the array keeps its shape. -/
def replaceFirst (p : Terrain → Bool) (t : Terrain) : List Terrain → List Terrain
  | [] => []
  | a :: l => if p a then t :: l else a :: replaceFirst p t l

/-- The drag-move step of `onMouseMove` (src/Script.js lines 304-333),
after the external raycast and rounding produced the candidate cell
`(gridX, gridZ)` for the selected terrain: if `isValidGridPosition` accepts
the candidate, commit it and recompute the world position, else do
nothing. -/
def tryMove (s : State) (terrainId gridX gridZ : Int) : State :=
  match s.terrains.find? fun t => decide (t.id = terrainId) with
  | none => s
  | some sel =>
    let cw := cellsWide s.grid sel.dimensions
    let cd := cellsDeep s.grid sel.dimensions
    if isValidGridPosition s gridX gridZ cw cd sel.id then
      let moved := updateTerrainPosition s.grid { sel with gridPosition := ⟨gridX, gridZ⟩ }
      { s with terrains := replaceFirst (fun t => decide (t.id = terrainId)) moved s.terrains }
    else s

/-- Truncation toward zero on rationals, the rounding used by the JS `%`
operator. -/
def ratTrunc (q : Rat) : Int :=
  if q < 0 then ⌈q⌉ else ⌊q⌋

/-- The JS remainder operator `a % b` on rationals: `a - b * trunc (a / b)`. -/
def jsMod (a b : Rat) : Rat :=
  a - b * (ratTrunc (a / b) : Rat)

/-- The rotation update of src/Script.js lines 430-435 applied to a terrain
object: advance the rotation by a quarter turn (in scaled units,
`jsMod (r + 1/2) 2` models `(r + Math.PI / 2) % (Math.PI * 2)`) and swap
the width and depth of the dimensions. -/
def rotatedTerrain (t : Terrain) : Terrain :=
  { t with
    rotation := jsMod (t.rotation + 1 / 2) 2,
    dimensions := { t.dimensions with
      width := t.dimensions.depth, depth := t.dimensions.width } }

/-- The Chebyshev distance between two grid cells. -/
def chebDist (a b : GridPos) : Nat :=
  max (a.x - b.x).natAbs (a.z - b.z).natAbs

/-- The offsets at Chebyshev radius exactly `r`, enumerated in a fixed
deterministic order (ascending `dx`, then ascending `dz`). -/
def ringOffsets (r : Nat) : List (Int × Int) :=
  ((intRange (-(r : Int)) r).flatMap fun dx =>
    (intRange (-(r : Int)) r).map fun dz => (dx, dz)).filter fun od =>
      decide (max od.1.natAbs od.2.natAbs = r)

/-- The candidate cells of the expanding-radius scan around `prev`:
radius 0, 1, 2, ... up to `bound`, each ring in its fixed order. -/
def nearestCandidates (bound : Nat) (prev : GridPos) : List GridPos :=
  ((List.range (bound + 1)).flatMap fun r => ringOffsets r).map fun od =>
    ⟨prev.x + od.1, prev.z + od.2⟩

/-- The expanding-radius search for the first valid candidate around
`prev`, with a bound covering the grid. -/
def nearestScan (s : State) (terrain : Terrain) (prev : GridPos) : Option GridPos :=
  let cw := cellsWide s.grid terrain.dimensions
  let cd := cellsDeep s.grid terrain.dimensions
  (nearestCandidates (4 * s.grid.size).toNat prev).find? fun p =>
    isValidGridPosition s p.x p.z cw cd terrain.id

/-- Modelled from the spec: `findNearestValidPosition` is called by
`rotateTerrain` (src/Script.js line 447) but is defined nowhere in the
source of this repository.  Following spec section 4.2
(`resolveAfterRotation`), it performs a nearest-position search: an
expanding-radius scan around the previous position, radius 0, 1, 2, ... up
to a bound covering the grid, over candidate offsets in a fixed
deterministic order, returning the first valid candidate, and falling back
to the `findFreePosition` semantics (`findAvailableGridPosition`, which may
itself return an overlapping (0, 0)) when the bound is exhausted. -/
def findNearestValidPosition (s : State) (terrain : Terrain) (prev : GridPos) : GridPos :=
  (nearestScan s terrain prev).getD (findAvailableGridPosition s terrain)

/-- The post-rotation position resolution of src/Script.js lines 441-449:
keep the previous position when it is still valid for the swapped
footprint, otherwise search for the nearest valid position. -/
def resolveAfterRotation (s : State) (terrain : Terrain) (prev : GridPos) : GridPos :=
  let cw := cellsWide s.grid terrain.dimensions
  let cd := cellsDeep s.grid terrain.dimensions
  if isValidGridPosition s prev.x prev.z cw cd terrain.id then prev
  else findNearestValidPosition s terrain prev

/-- `rotateTerrain` of src/Script.js lines 424-457: find the terrain by id
(no-op when absent), advance rotation and swap dimensions in place, resolve
the grid position for the swapped footprint, commit it and recompute the
world position. -/
def rotateTerrain (s : State) (terrainId : Int) : State :=
  match s.terrains.find? fun t => decide (t.id = terrainId) with
  | none => s
  | some terrain =>
    let currentGridPos := terrain.gridPosition
    let rotated := rotatedTerrain terrain
    let s1 : State :=
      { s with terrains := replaceFirst (fun t => decide (t.id = terrainId)) rotated s.terrains }
    let newPos := resolveAfterRotation s1 rotated currentGridPos
    let final := updateTerrainPosition s.grid { rotated with gridPosition := newPos }
    { s with terrains := replaceFirst (fun t => decide (t.id = terrainId)) final s.terrains }

/-- `centerOnTerrain` of src/Script.js lines 459-468: the registry is never
touched; the boolean records whether the camera was retargeted (the camera
itself is external to the core). -/
def centerOnTerrain (s : State) (terrainId : Int) : State × Bool :=
  match s.terrains.find? fun t => decide (t.id = terrainId) with
  | none => (s, false)
  | some _ => (s, true)

/-- `removeTerrain` of src/Script.js lines 470-478: `findIndex` then
`splice`; a no-op when the id is absent. -/
def removeTerrain (s : State) (terrainId : Int) : State :=
  match s.terrains.findIdx? fun t => decide (t.id = terrainId) with
  | none => s
  | some i => { s with terrains := s.terrains.eraseIdx i }

/-- The scan-order comparator: an earlier row (smaller z), or the same row
and a smaller or equal column. -/
def gridLexLE (a b : GridPos) : Prop :=
  a.z < b.z ∨ (a.z = b.z ∧ a.x ≤ b.x)

/-- Strict version of the scan-order comparator. -/
def gridLexLT (a b : GridPos) : Prop :=
  a.z < b.z ∨ (a.z = b.z ∧ a.x < b.x)

/-- Membership of an integer point in the closed-open cell rectangle of a
terrain. -/
def inRect (g : GridConfig) (t : Terrain) (px pz : Int) : Prop :=
  t.gridPosition.x ≤ px ∧ px < t.gridPosition.x + cellsWide g t.dimensions ∧
  t.gridPosition.z ≤ pz ∧ pz < t.gridPosition.z + cellsDeep g t.dimensions

/-- Two terrains have non-intersecting cell rectangles. -/
def rectDisjoint (g : GridConfig) (a b : Terrain) : Prop :=
  ∀ px pz : Int, ¬(inRect g a px pz ∧ inRect g b px pz)

/-- The NO-OVERLAP invariant: the cell rectangles of any two distinct
registry entries do not intersect. -/
def NoOverlap (s : State) : Prop :=
  s.terrains.Pairwise (rectDisjoint s.grid)

/-- The UPPER-BOUND invariant: every footprint fits below `grid.size` on
both axes (no lower bound). -/
def UpperBound (s : State) : Prop :=
  ∀ t ∈ s.terrains,
    t.gridPosition.x + cellsWide s.grid t.dimensions ≤ s.grid.size ∧
    t.gridPosition.z + cellsDeep s.grid t.dimensions ≤ s.grid.size

/-- Well-formedness of the registry: terrain ids are pairwise distinct. -/
def IdsNodup (s : State) : Prop :=
  (s.terrains.map Terrain.id).Nodup

/-- The invariants carried through every commit: distinct ids, NO-OVERLAP
and UPPER-BOUND. -/
def Invariants (s : State) : Prop :=
  IdsNodup s ∧ NoOverlap s ∧ UpperBound s

/-- The commit operations of the engine: placement of a new terrain,
a drag-move event (committed only when valid) and a rotation. -/
inductive Op where
  | place (id : Int) (name : String) (dims : Dimensions)
  | move (terrainId gridX gridZ : Int)
  | rotate (terrainId : Int)

/-- Apply one operation to the state. -/
def applyOp (s : State) : Op → State
  | .place id name dims => placeTerrain s id name dims
  | .move terrainId gridX gridZ => tryMove s terrainId gridX gridZ
  | .rotate terrainId => rotateTerrain s terrainId

/-- Apply a sequence of operations, first to last. -/
def applyOps (s : State) (ops : List Op) : State :=
  ops.foldl applyOp s

/-- The operation avoids the documented degenerate fallback (and, for a
placement, uses a fresh id): a placement whose scan finds a free cell, any
move, and a rotation that keeps its position, finds a nearby valid cell, or
at worst relocates to a free cell found by the full scan. -/
def opOk (s : State) : Op → Bool
  | .place id name dims =>
    decide (∀ t ∈ s.terrains, t.id ≠ id) &&
    (scanFree { s with terrains := s.terrains ++ [newTerrain id name dims] }
      (newTerrain id name dims)).isSome
  | .move _ _ _ => true
  | .rotate terrainId =>
    match s.terrains.find? fun t => decide (t.id = terrainId) with
    | none => true
    | some terrain =>
      let rotated := rotatedTerrain terrain
      let s1 : State :=
        { s with terrains := replaceFirst (fun t => decide (t.id = terrainId)) rotated s.terrains }
      isValidGridPosition s1 terrain.gridPosition.x terrain.gridPosition.z
        (cellsWide s1.grid rotated.dimensions) (cellsDeep s1.grid rotated.dimensions)
        rotated.id ||
      (nearestScan s1 rotated terrain.gridPosition).isSome ||
      (scanFree s1 rotated).isSome

/-- Every operation of the run avoids the degenerate fallback, at the state
where it executes. -/
def runOk : State → List Op → Bool
  | _, [] => true
  | s, op :: ops => opOk s op && runOk (applyOp s op) ops

/-- The frame relation of one drag-move event for the terrain dragged under
`terrainId`: identity, name, dimensions, rotation and visibility are always
kept, and any terrain other than the dragged one is kept entirely. -/
def dragFrame (terrainId : Int) (t tn : Terrain) : Prop :=
  tn.id = t.id ∧ tn.name = t.name ∧ tn.dimensions = t.dimensions ∧
  tn.rotation = t.rotation ∧ tn.visible = t.visible ∧
  (t.id ≠ terrainId → tn = t)

/-- The default grid of src/Script.js line 4: 10 cells of 10 world units. -/
def gridTen : GridConfig := ⟨10, 10⟩

/-- Scenario A fixture: empty registry on the default grid. -/
def exA : State := ⟨gridTen, []⟩

/-- Scenario A fixture: a terrain of width 15 and depth 5. -/
def exATerrain : Terrain := newTerrain 1 "a" ⟨15, 5, 0⟩

/-- Scenario B fixture: two 2-by-2-cell terrains at (0,0) and (2,0). -/
def exB : State :=
  ⟨gridTen,
    [ { newTerrain 1 "t1" ⟨20, 20, 0⟩ with gridPosition := ⟨0, 0⟩ },
      { newTerrain 2 "t2" ⟨20, 20, 0⟩ with gridPosition := ⟨2, 0⟩ } ]⟩

/-- Degenerate-footprint fixture: one 2-by-2-cell terrain at (-10,-10). -/
def exC : State :=
  ⟨gridTen, [ { newTerrain 1 "b" ⟨20, 20, 0⟩ with gridPosition := ⟨-10, -10⟩ } ]⟩

/-- Degenerate-footprint fixture: a terrain with an empty bounding box. -/
def exCTerrain : Terrain := newTerrain 2 "z" ⟨0, 0, 0⟩

/-- Rotation-relocation fixture: a 1-by-2-cell terrain at (1,0) on a grid
of 2 cells, so that the swapped footprint violates the upper bound. -/
def exD : State :=
  ⟨⟨2, 10⟩, [ { newTerrain 1 "d" ⟨10, 20, 0⟩ with gridPosition := ⟨1, 0⟩ } ]⟩

/-- A concrete run used to witness the invariant-preservation theorem. -/
def exRunOps : List Op :=
  [.place 1 "a" ⟨15, 5, 0⟩, .move 1 3 3, .rotate 1]

/-! ### The computable ceiling agrees with the mathematical one -/

theorem rat_floor_eq (q : Rat) : q.floor = ⌊q⌋ := rfl

theorem ratDivCeil_eq (a b : Rat) : ratDivCeil a b = ⌈a / b⌉ := by
  unfold ratDivCeil
  rw [rat_floor_eq, ← Rat.neg_divInt, Int.floor_neg, neg_neg, Rat.divInt_eq_div]
  congr 1
  push_cast
  by_cases hb : b = 0
  · subst hb
    simp
  · have hbn : (b.num : ℚ) ≠ 0 := by
      exact_mod_cast Rat.num_ne_zero.mpr hb
    have had : ((a.den : ℤ) : ℚ) ≠ 0 := by
      exact_mod_cast a.den_ne_zero
    have hbd : ((b.den : ℤ) : ℚ) ≠ 0 := by
      exact_mod_cast b.den_ne_zero
    conv_rhs => rw [← Rat.num_div_den a, ← Rat.num_div_den b]
    field_simp
    exact Or.inl (mul_comm _ _)

theorem cellsWide_eq (g : GridConfig) (d : Dimensions) :
    cellsWide g d = ⌈d.width / g.cellSize⌉ :=
  ratDivCeil_eq d.width g.cellSize

theorem cellsDeep_eq (g : GridConfig) (d : Dimensions) :
    cellsDeep g d = ⌈d.depth / g.cellSize⌉ :=
  ratDivCeil_eq d.depth g.cellSize

/-! ### Range and scan-order lemmas -/

theorem mem_intRange {lo hi x : Int} : x ∈ intRange lo hi ↔ lo ≤ x ∧ x ≤ hi := by
  simp only [intRange, List.mem_map, List.mem_range]
  constructor
  · rintro ⟨i, hilt, rfl⟩
    omega
  · intro h
    exact ⟨(x - lo).toNat, by omega, by omega⟩

theorem pairwise_intRange {lo hi : Int} : (intRange lo hi).Pairwise (· < ·) := by
  unfold intRange
  refine List.pairwise_map.mpr ((List.pairwise_lt_range _).imp ?_)
  intro a b h
  omega

theorem mem_scanCandidates {g : GridConfig} {cw cd : Int} {p : GridPos} :
    p ∈ scanCandidates g cw cd ↔
      (-g.size ≤ p.x ∧ p.x ≤ g.size - cw) ∧ (-g.size ≤ p.z ∧ p.z ≤ g.size - cd) := by
  simp only [scanCandidates, List.mem_flatMap, List.mem_map, mem_intRange]
  constructor
  · rintro ⟨z, hz, x, hx, rfl⟩
    exact ⟨hx, hz⟩
  · rintro ⟨hx, hz⟩
    exact ⟨p.z, hz, p.x, hx, rfl⟩

theorem pairwise_row_major {zs xs : List Int}
    (hz : zs.Pairwise (· < ·)) (hx : xs.Pairwise (· < ·)) :
    (zs.flatMap fun z => xs.map fun x => (⟨x, z⟩ : GridPos)).Pairwise gridLexLT := by
  induction zs with
  | nil => simp
  | cons z zs ih =>
    rw [List.flatMap_cons, List.pairwise_append]
    refine ⟨List.pairwise_map.mpr (hx.imp fun h => Or.inr ⟨rfl, h⟩), ih hz.of_cons, ?_⟩
    intro a ha b hb
    simp only [List.mem_map] at ha
    obtain ⟨x, _, rfl⟩ := ha
    simp only [List.mem_flatMap, List.mem_map] at hb
    obtain ⟨z2, hz2, x2, _, rfl⟩ := hb
    exact Or.inl (List.rel_of_pairwise_cons hz hz2)

theorem pairwise_scanCandidates {g : GridConfig} {cw cd : Int} :
    (scanCandidates g cw cd).Pairwise gridLexLT :=
  pairwise_row_major pairwise_intRange pairwise_intRange

theorem find?_min {α : Type} {R : α → α → Prop} {p : α → Bool} :
    ∀ {l : List α} {a : α}, l.Pairwise R → l.find? p = some a →
      ∀ b ∈ l, p b = true → a = b ∨ R a b := by
  intro l
  induction l with
  | nil => intro a _ h; simp at h
  | cons x l ih =>
    intro a hpw hf b hb hpb
    cases hx : p x with
    | false =>
      rw [List.find?_cons_of_neg _ (by simp [hx])] at hf
      rcases List.mem_cons.mp hb with rfl | hbl
      · rw [hpb] at hx; cases hx
      · exact ih hpw.of_cons hf b hbl hpb
    | true =>
      rw [List.find?_cons_of_pos _ hx] at hf
      injection hf with h
      subst h
      rcases List.mem_cons.mp hb with rfl | hbl
      · exact Or.inl rfl
      · exact Or.inr (List.rel_of_pairwise_cons hpw hbl)

/-! ### Occupancy and validity lemmas -/

theorem isPositionOccupied_eq_false {s : State} {x z w d ex : Int} :
    isPositionOccupied s x z w d ex = false ↔
      ∀ t ∈ s.terrains, t.id ≠ ex →
        noOverlapTest x z w d t.gridPosition.x t.gridPosition.z
          (cellsWide s.grid t.dimensions) (cellsDeep s.grid t.dimensions) = true := by
  simp only [isPositionOccupied, List.any_eq_false]
  constructor
  · intro h t ht hne
    have := h t ht
    rw [if_neg hne] at this
    simpa using this
  · intro h t ht
    by_cases hne : t.id = ex
    · simp [if_pos hne]
    · rw [if_neg hne]
      simpa using h t ht hne

theorem isPositionOccupied_eq_true {s : State} {x z w d ex : Int} :
    isPositionOccupied s x z w d ex = true ↔
      ∃ t ∈ s.terrains, t.id ≠ ex ∧
        noOverlapTest x z w d t.gridPosition.x t.gridPosition.z
          (cellsWide s.grid t.dimensions) (cellsDeep s.grid t.dimensions) = false := by
  simp only [isPositionOccupied, List.any_eq_true]
  constructor
  · rintro ⟨t, ht, hp⟩
    by_cases hne : t.id = ex
    · rw [if_pos hne] at hp; cases hp
    · rw [if_neg hne] at hp
      exact ⟨t, ht, hne, by simpa using hp⟩
  · rintro ⟨t, ht, hne, hp⟩
    refine ⟨t, ht, ?_⟩
    rw [if_neg hne]
    simpa using hp

theorem isValidGridPosition_eq_true {s : State} {x z w d ex : Int} :
    isValidGridPosition s x z w d ex = true ↔
      x + w ≤ s.grid.size ∧ z + d ≤ s.grid.size ∧
        isPositionOccupied s x z w d ex = false := by
  simp [isValidGridPosition, Bool.and_eq_true, decide_eq_true_eq, Bool.not_eq_true',
    and_assoc]

theorem rectDisjoint_symm {g : GridConfig} {a b : Terrain}
    (h : rectDisjoint g a b) : rectDisjoint g b a :=
  fun px pz hc => h px pz ⟨hc.2, hc.1⟩

theorem rectDisjoint_of_noOverlapTest {g : GridConfig} {a b : Terrain}
    (h : noOverlapTest a.gridPosition.x a.gridPosition.z (cellsWide g a.dimensions)
      (cellsDeep g a.dimensions) b.gridPosition.x b.gridPosition.z
      (cellsWide g b.dimensions) (cellsDeep g b.dimensions) = true) :
    rectDisjoint g a b := by
  intro px pz hc
  obtain ⟨ha, hb⟩ := hc
  simp only [noOverlapTest, Bool.or_eq_true, decide_eq_true_eq] at h
  unfold inRect at ha hb
  omega

/-! ### Field lemmas for terrain transformers -/

@[simp] theorem updateTerrainPosition_id {g : GridConfig} {t : Terrain} :
    (updateTerrainPosition g t).id = t.id := rfl

@[simp] theorem updateTerrainPosition_name {g : GridConfig} {t : Terrain} :
    (updateTerrainPosition g t).name = t.name := rfl

@[simp] theorem updateTerrainPosition_gridPosition {g : GridConfig} {t : Terrain} :
    (updateTerrainPosition g t).gridPosition = t.gridPosition := rfl

@[simp] theorem updateTerrainPosition_dimensions {g : GridConfig} {t : Terrain} :
    (updateTerrainPosition g t).dimensions = t.dimensions := rfl

@[simp] theorem updateTerrainPosition_rotation {g : GridConfig} {t : Terrain} :
    (updateTerrainPosition g t).rotation = t.rotation := rfl

@[simp] theorem updateTerrainPosition_visible {g : GridConfig} {t : Terrain} :
    (updateTerrainPosition g t).visible = t.visible := rfl

@[simp] theorem rotatedTerrain_id {t : Terrain} :
    (rotatedTerrain t).id = t.id := rfl

@[simp] theorem rotatedTerrain_gridPosition {t : Terrain} :
    (rotatedTerrain t).gridPosition = t.gridPosition := rfl

@[simp] theorem rotatedTerrain_rotation {t : Terrain} :
    (rotatedTerrain t).rotation = jsMod (t.rotation + 1 / 2) 2 := rfl

@[simp] theorem rotatedTerrain_width {t : Terrain} :
    (rotatedTerrain t).dimensions.width = t.dimensions.depth := rfl

@[simp] theorem rotatedTerrain_depth {t : Terrain} :
    (rotatedTerrain t).dimensions.depth = t.dimensions.width := rfl

/-! ### replaceFirst lemmas -/

theorem mem_replaceFirst {p : Terrain → Bool} {t b : Terrain} :
    ∀ {l : List Terrain}, b ∈ replaceFirst p t l → b = t ∨ b ∈ l := by
  intro l
  induction l with
  | nil => intro h; simp [replaceFirst] at h
  | cons a l ih =>
    intro h
    by_cases ha : p a
    · rw [replaceFirst, if_pos ha] at h
      rcases List.mem_cons.mp h with rfl | hbl
      · exact Or.inl rfl
      · exact Or.inr (List.mem_cons_of_mem _ hbl)
    · rw [replaceFirst, if_neg ha] at h
      rcases List.mem_cons.mp h with rfl | hbl
      · exact Or.inr (List.mem_cons_self _ _)
      · rcases ih hbl with h1 | h1
        · exact Or.inl h1
        · exact Or.inr (List.mem_cons_of_mem _ h1)

theorem mem_replaceFirst_of_neg {p : Terrain → Bool} {t b : Terrain} :
    ∀ {l : List Terrain}, b ∈ l → p b = false → b ∈ replaceFirst p t l := by
  intro l
  induction l with
  | nil => intro h; simp at h
  | cons a l ih =>
    intro hb hpb
    by_cases ha : p a
    · rw [replaceFirst, if_pos ha]
      rcases List.mem_cons.mp hb with rfl | hbl
      · rw [hpb] at ha; cases ha
      · exact List.mem_cons_of_mem _ hbl
    · rw [replaceFirst, if_neg ha]
      rcases List.mem_cons.mp hb with rfl | hbl
      · exact List.mem_cons_self _ _
      · exact List.mem_cons_of_mem _ (ih hbl hpb)

theorem replaceFirst_of_forall_neg {p : Terrain → Bool} {t : Terrain} :
    ∀ {l : List Terrain}, (∀ a ∈ l, p a = false) → replaceFirst p t l = l := by
  intro l
  induction l with
  | nil => intro _; rfl
  | cons a l ih =>
    intro h
    rw [replaceFirst, if_neg (by simp [h a (List.mem_cons_self _ _)]),
      ih fun b hb => h b (List.mem_cons_of_mem _ hb)]

theorem find?_replaceFirst {p : Terrain → Bool} {t a : Terrain}
    (hpt : p t = true) :
    ∀ {l : List Terrain}, l.find? p = some a →
      (replaceFirst p t l).find? p = some t := by
  intro l
  induction l with
  | nil => intro h; simp at h
  | cons x l ih =>
    intro hf
    cases hx : p x with
    | false =>
      rw [List.find?_cons_of_neg _ (by simp [hx])] at hf
      rw [replaceFirst, if_neg (by simp [hx]), List.find?_cons_of_neg _ (by simp [hx])]
      exact ih hf
    | true =>
      rw [replaceFirst, if_pos hx, List.find?_cons_of_pos _ hpt]

theorem map_id_replaceFirst {p : Terrain → Bool} {t : Terrain}
    (hid : ∀ a, p a = true → t.id = a.id) :
    ∀ {l : List Terrain},
      (replaceFirst p t l).map Terrain.id = l.map Terrain.id := by
  intro l
  induction l with
  | nil => rfl
  | cons a l ih =>
    by_cases ha : p a
    · rw [replaceFirst, if_pos ha, List.map_cons, List.map_cons, hid a ha]
    · rw [replaceFirst, if_neg ha, List.map_cons, List.map_cons, ih]

theorem pairwise_replaceFirst {g : GridConfig} {tid : Int} {t : Terrain} :
    ∀ {l : List Terrain}, (l.map Terrain.id).Nodup →
      l.Pairwise (rectDisjoint g) → t.id = tid →
      (∀ b ∈ l, b.id ≠ tid → rectDisjoint g t b) →
      (replaceFirst (fun a => decide (a.id = tid)) t l).Pairwise (rectDisjoint g) := by
  intro l
  induction l with
  | nil => intro _ _ _ _; exact List.Pairwise.nil
  | cons a l ih =>
    intro hN hP ht hocc
    rw [List.map_cons, List.nodup_cons] at hN
    by_cases ha : a.id = tid
    · rw [replaceFirst, if_pos (by simp [ha])]
      refine List.Pairwise.cons ?_ hP.of_cons
      intro b hb
      refine hocc b (List.mem_cons_of_mem _ hb) ?_
      intro hbid
      exact hN.1 (by rw [ha, ← hbid]; exact List.mem_map_of_mem _ hb)
    · rw [replaceFirst, if_neg (by simp [ha])]
      refine List.Pairwise.cons ?_
        (ih hN.2 hP.of_cons ht fun b hb hbne => hocc b (List.mem_cons_of_mem _ hb) hbne)
      intro b hb
      rcases mem_replaceFirst hb with rfl | hbl
      · exact rectDisjoint_symm (hocc a (List.mem_cons_self _ _) ha)
      · exact List.rel_of_pairwise_cons hP hbl

theorem forall2_self {R : Terrain → Terrain → Prop} :
    ∀ {l : List Terrain}, (∀ x ∈ l, R x x) → List.Forall₂ R l l := by
  intro l
  induction l with
  | nil => intro _; exact List.Forall₂.nil
  | cons a l ih =>
    intro h
    exact List.Forall₂.cons (h a (List.mem_cons_self _ _))
      (ih fun x hx => h x (List.mem_cons_of_mem _ hx))

theorem forall2_replaceFirst {R : Terrain → Terrain → Prop} {p : Terrain → Bool}
    {t a : Terrain} (hrefl : ∀ x, R x x) (hat : R a t) :
    ∀ {l : List Terrain}, l.find? p = some a →
      List.Forall₂ R l (replaceFirst p t l) := by
  intro l
  induction l with
  | nil => intro h; simp at h
  | cons x l ih =>
    intro hf
    cases hx : p x with
    | false =>
      rw [List.find?_cons_of_neg _ (by simp [hx])] at hf
      rw [replaceFirst, if_neg (by simp [hx])]
      exact List.Forall₂.cons (hrefl x) (ih hf)
    | true =>
      rw [List.find?_cons_of_pos _ hx] at hf
      injection hf with h
      subst h
      rw [replaceFirst, if_pos hx]
      exact List.Forall₂.cons hat (forall2_self fun y _ => hrefl y)

/-! ### Scan result lemmas -/

theorem scanFree_some {s : State} {t : Terrain} {p : GridPos}
    (h : scanFree s t = some p) :
    p ∈ scanCandidates s.grid (cellsWide s.grid t.dimensions) (cellsDeep s.grid t.dimensions) ∧
      isPositionOccupied s p.x p.z (cellsWide s.grid t.dimensions)
        (cellsDeep s.grid t.dimensions) t.id = false := by
  unfold scanFree at h
  refine ⟨List.mem_of_find?_eq_some h, ?_⟩
  have := List.find?_some h
  simpa using this

theorem scanFree_none {s : State} {t : Terrain} (h : scanFree s t = none) :
    ∀ p ∈ scanCandidates s.grid (cellsWide s.grid t.dimensions)
        (cellsDeep s.grid t.dimensions),
      isPositionOccupied s p.x p.z (cellsWide s.grid t.dimensions)
        (cellsDeep s.grid t.dimensions) t.id = true := by
  intro p hp
  unfold scanFree at h
  have := List.find?_eq_none.mp h p hp
  simpa using this

theorem scanFree_eq_none {s : State} {t : Terrain}
    (h : ∀ p ∈ scanCandidates s.grid (cellsWide s.grid t.dimensions)
        (cellsDeep s.grid t.dimensions),
      isPositionOccupied s p.x p.z (cellsWide s.grid t.dimensions)
        (cellsDeep s.grid t.dimensions) t.id = true) :
    scanFree s t = none := by
  unfold scanFree
  refine List.find?_eq_none.mpr fun p hp => ?_
  simp [h p hp]

/-! ### Expanding-radius candidate lemmas -/

theorem pairwise_of_forall_mem {α : Type} {R : α → α → Prop} :
    ∀ {l : List α}, (∀ a ∈ l, ∀ b ∈ l, R a b) → l.Pairwise R := by
  intro l
  induction l with
  | nil => intro _; exact List.Pairwise.nil
  | cons a l ih =>
    intro h
    refine List.Pairwise.cons
      (fun b hb => h a (List.mem_cons_self _ _) b (List.mem_cons_of_mem _ hb)) (ih ?_)
    intro x hx y hy
    exact h x (List.mem_cons_of_mem _ hx) y (List.mem_cons_of_mem _ hy)

theorem mem_ringOffsets {r : Nat} {od : Int × Int} :
    od ∈ ringOffsets r ↔ max od.1.natAbs od.2.natAbs = r := by
  unfold ringOffsets
  simp only [List.mem_filter, List.mem_flatMap, List.mem_map, mem_intRange,
    decide_eq_true_eq]
  constructor
  · rintro ⟨_, h⟩
    exact h
  · intro h
    refine ⟨⟨od.1, by omega, od.2, by omega, rfl⟩, h⟩

theorem chebDist_offset {prev : GridPos} {od : Int × Int} :
    chebDist ⟨prev.x + od.1, prev.z + od.2⟩ prev = max od.1.natAbs od.2.natAbs := by
  unfold chebDist
  have h1 : prev.x + od.1 - prev.x = od.1 := by ring
  have h2 : prev.z + od.2 - prev.z = od.2 := by ring
  rw [h1, h2]

theorem mem_nearestCandidates {bound : Nat} {prev q : GridPos} :
    q ∈ nearestCandidates bound prev ↔ chebDist q prev ≤ bound := by
  unfold nearestCandidates
  simp only [List.mem_map, List.mem_flatMap, List.mem_range, mem_ringOffsets]
  constructor
  · rintro ⟨od, ⟨r, hr, hod⟩, rfl⟩
    rw [chebDist_offset, hod]
    omega
  · intro h
    refine ⟨(q.x - prev.x, q.z - prev.z),
      ⟨max (q.x - prev.x).natAbs (q.z - prev.z).natAbs, ?_, rfl⟩, ?_⟩
    · unfold chebDist at h
      omega
    · cases q with
      | mk qx qz =>
        simp only [GridPos.mk.injEq]
        constructor <;> ring

theorem pairwise_nearestCandidates {bound : Nat} {prev : GridPos} :
    (nearestCandidates bound prev).Pairwise
      (fun a b => chebDist a prev ≤ chebDist b prev) := by
  unfold nearestCandidates
  refine List.pairwise_map.mpr ?_
  have key : ∀ n : Nat, ((List.range n).flatMap fun r => ringOffsets r).Pairwise
      (fun od od2 => max od.1.natAbs od.2.natAbs ≤ max od2.1.natAbs od2.2.natAbs) := by
    intro n
    induction n with
    | zero => simp
    | succ n ih =>
      rw [List.range_succ, List.flatMap_append, List.pairwise_append]
      refine ⟨ih, ?_, ?_⟩
      · simp only [List.flatMap_cons, List.flatMap_nil, List.append_nil]
        refine pairwise_of_forall_mem fun a ha b hb => ?_
        rw [mem_ringOffsets.mp ha, mem_ringOffsets.mp hb]
      · intro a ha b hb
        simp only [List.mem_flatMap, List.mem_range] at ha
        obtain ⟨r, hr, har⟩ := ha
        simp only [List.flatMap_cons, List.flatMap_nil, List.append_nil] at hb
        rw [mem_ringOffsets.mp har, mem_ringOffsets.mp hb]
        omega
  refine (key (bound + 1)).imp ?_
  intro od od2 h
  rw [chebDist_offset, chebDist_offset]
  exact h

theorem nearestScan_some {s : State} {t : Terrain} {prev q : GridPos}
    (h : nearestScan s t prev = some q) :
    chebDist q prev ≤ (4 * s.grid.size).toNat ∧
      isValidGridPosition s q.x q.z (cellsWide s.grid t.dimensions)
        (cellsDeep s.grid t.dimensions) t.id = true := by
  simp only [nearestScan] at h
  refine ⟨mem_nearestCandidates.mp (List.mem_of_find?_eq_some h), ?_⟩
  have h2 := List.find?_some h
  simpa using h2

theorem nearestScan_min {s : State} {t : Terrain} {prev q r : GridPos}
    (h : nearestScan s t prev = some r)
    (hq : chebDist q prev ≤ (4 * s.grid.size).toNat)
    (hqv : isValidGridPosition s q.x q.z (cellsWide s.grid t.dimensions)
      (cellsDeep s.grid t.dimensions) t.id = true) :
    chebDist r prev ≤ chebDist q prev := by
  simp only [nearestScan] at h
  rcases find?_min pairwise_nearestCandidates h q (mem_nearestCandidates.mpr hq) hqv with
    h1 | h1
  · rw [h1]
  · exact h1

theorem nearestScan_eq_none {s : State} {t : Terrain} {prev : GridPos}
    (h : ∀ q : GridPos, chebDist q prev ≤ (4 * s.grid.size).toNat →
      isValidGridPosition s q.x q.z (cellsWide s.grid t.dimensions)
        (cellsDeep s.grid t.dimensions) t.id = false) :
    nearestScan s t prev = none := by
  simp only [nearestScan]
  refine List.find?_eq_none.mpr fun q hq => ?_
  simp [h q (mem_nearestCandidates.mp hq)]

theorem nearestScan_isSome {s : State} {t : Terrain} {prev q : GridPos}
    (hq : chebDist q prev ≤ (4 * s.grid.size).toNat)
    (hqv : isValidGridPosition s q.x q.z (cellsWide s.grid t.dimensions)
      (cellsDeep s.grid t.dimensions) t.id = true) :
    (nearestScan s t prev).isSome = true := by
  cases h : nearestScan s t prev with
  | some r => rfl
  | none =>
    simp only [nearestScan] at h
    have := List.find?_eq_none.mp h q (mem_nearestCandidates.mpr hq)
    simp [hqv] at this

/-! ### Rotation arithmetic lemmas -/

theorem jsMod_two_of_lt {a : Rat} (h0 : 0 ≤ a) (h2 : a < 2) : jsMod a 2 = a := by
  unfold jsMod ratTrunc
  have hq : ¬(a / 2 < 0) := by
    simp only [not_lt]
    positivity
  rw [if_neg hq]
  have hfl : ⌊a / 2⌋ = 0 := by
    rw [Int.floor_eq_zero_iff, Set.mem_Ico]
    exact ⟨le_of_not_lt hq, by linarith⟩
  rw [hfl]
  push_cast
  ring

theorem jsMod_two_of_ge {a : Rat} (h0 : 2 ≤ a) (h2 : a < 4) : jsMod a 2 = a - 2 := by
  unfold jsMod ratTrunc
  have hq : ¬(a / 2 < 0) := by
    simp only [not_lt]
    linarith
  rw [if_neg hq]
  have hfl : ⌊a / 2⌋ = 1 := by
    rw [Int.floor_eq_iff]
    push_cast
    constructor <;> linarith
  rw [hfl]
  push_cast
  ring

theorem rot_four_steps {r : Rat} (h0 : 0 ≤ r) (h2 : r < 2) :
    jsMod (jsMod (jsMod (jsMod (r + 1 / 2) 2 + 1 / 2) 2 + 1 / 2) 2 + 1 / 2) 2 = r := by
  rcases lt_or_le r (3 / 2) with h | h
  · rw [jsMod_two_of_lt (show (0 : Rat) ≤ r + 1 / 2 by linarith)
      (show r + 1 / 2 < 2 by linarith)]
    rcases lt_or_le r 1 with h1 | h1
    · rw [jsMod_two_of_lt (show (0 : Rat) ≤ r + 1 / 2 + 1 / 2 by linarith)
        (show r + 1 / 2 + 1 / 2 < 2 by linarith)]
      rcases lt_or_le r (1 / 2) with h3 | h3
      · rw [jsMod_two_of_lt (show (0 : Rat) ≤ r + 1 / 2 + 1 / 2 + 1 / 2 by linarith)
          (show r + 1 / 2 + 1 / 2 + 1 / 2 < 2 by linarith),
          jsMod_two_of_ge (show (2 : Rat) ≤ r + 1 / 2 + 1 / 2 + 1 / 2 + 1 / 2 by linarith)
          (show r + 1 / 2 + 1 / 2 + 1 / 2 + 1 / 2 < 4 by linarith)]
        ring
      · rw [jsMod_two_of_ge (show (2 : Rat) ≤ r + 1 / 2 + 1 / 2 + 1 / 2 by linarith)
          (show r + 1 / 2 + 1 / 2 + 1 / 2 < 4 by linarith),
          jsMod_two_of_lt (show (0 : Rat) ≤ r + 1 / 2 + 1 / 2 + 1 / 2 - 2 + 1 / 2 by linarith)
          (show r + 1 / 2 + 1 / 2 + 1 / 2 - 2 + 1 / 2 < 2 by linarith)]
        ring
    · rw [jsMod_two_of_ge (show (2 : Rat) ≤ r + 1 / 2 + 1 / 2 by linarith)
        (show r + 1 / 2 + 1 / 2 < 4 by linarith),
        jsMod_two_of_lt (show (0 : Rat) ≤ r + 1 / 2 + 1 / 2 - 2 + 1 / 2 by linarith)
        (show r + 1 / 2 + 1 / 2 - 2 + 1 / 2 < 2 by linarith),
        jsMod_two_of_lt (show (0 : Rat) ≤ r + 1 / 2 + 1 / 2 - 2 + 1 / 2 + 1 / 2 by linarith)
        (show r + 1 / 2 + 1 / 2 - 2 + 1 / 2 + 1 / 2 < 2 by linarith)]
      ring
  · rw [jsMod_two_of_ge (show (2 : Rat) ≤ r + 1 / 2 by linarith)
      (show r + 1 / 2 < 4 by linarith),
      jsMod_two_of_lt (show (0 : Rat) ≤ r + 1 / 2 - 2 + 1 / 2 by linarith)
      (show r + 1 / 2 - 2 + 1 / 2 < 2 by linarith),
      jsMod_two_of_lt (show (0 : Rat) ≤ r + 1 / 2 - 2 + 1 / 2 + 1 / 2 by linarith)
      (show r + 1 / 2 - 2 + 1 / 2 + 1 / 2 < 2 by linarith),
      jsMod_two_of_lt (show (0 : Rat) ≤ r + 1 / 2 - 2 + 1 / 2 + 1 / 2 + 1 / 2 by linarith)
      (show r + 1 / 2 - 2 + 1 / 2 + 1 / 2 + 1 / 2 < 2 by linarith)]
    ring

/-! ### Equation lemmas for the state-changing operations -/

theorem tryMove_none {s : State} {tid gx gz : Int}
    (hf : s.terrains.find? (fun t => decide (t.id = tid)) = none) :
    tryMove s tid gx gz = s := by
  unfold tryMove
  rw [hf]

theorem tryMove_some_valid {s : State} {tid gx gz : Int} {sel : Terrain}
    (hf : s.terrains.find? (fun t => decide (t.id = tid)) = some sel)
    (hv : isValidGridPosition s gx gz (cellsWide s.grid sel.dimensions)
      (cellsDeep s.grid sel.dimensions) sel.id = true) :
    tryMove s tid gx gz =
      { s with terrains := (replaceFirst (fun t => decide (t.id = tid))
          (updateTerrainPosition s.grid { sel with gridPosition := ⟨gx, gz⟩ })
          s.terrains) } := by
  unfold tryMove
  rw [hf]
  simp only [hv, if_true]

theorem tryMove_some_invalid {s : State} {tid gx gz : Int} {sel : Terrain}
    (hf : s.terrains.find? (fun t => decide (t.id = tid)) = some sel)
    (hv : isValidGridPosition s gx gz (cellsWide s.grid sel.dimensions)
      (cellsDeep s.grid sel.dimensions) sel.id = false) :
    tryMove s tid gx gz = s := by
  unfold tryMove
  rw [hf]
  simp only [hv, Bool.false_eq_true, if_false]

theorem rotateTerrain_none {s : State} {tid : Int}
    (hf : s.terrains.find? (fun t => decide (t.id = tid)) = none) :
    rotateTerrain s tid = s := by
  unfold rotateTerrain
  rw [hf]

theorem rotateTerrain_some {s : State} {tid : Int} {terrain : Terrain}
    (hf : s.terrains.find? (fun t => decide (t.id = tid)) = some terrain) :
    rotateTerrain s tid =
      { s with terrains := (replaceFirst (fun t => decide (t.id = tid))
          (updateTerrainPosition s.grid
            { rotatedTerrain terrain with gridPosition :=
                (resolveAfterRotation
                  { s with terrains := (replaceFirst (fun t => decide (t.id = tid))
                      (rotatedTerrain terrain) s.terrains) }
                  (rotatedTerrain terrain) terrain.gridPosition) })
          s.terrains) } := by
  unfold rotateTerrain
  rw [hf]

theorem removeTerrain_none {s : State} {tid : Int}
    (hf : s.terrains.findIdx? (fun t => decide (t.id = tid)) = none) :
    removeTerrain s tid = s := by
  unfold removeTerrain
  rw [hf]

theorem findAvailableGridPosition_of_some {s : State} {t : Terrain} {p : GridPos}
    (h : scanFree s t = some p) : findAvailableGridPosition s t = p := by
  unfold findAvailableGridPosition
  rw [h]
  rfl

theorem findAvailableGridPosition_of_none {s : State} {t : Terrain}
    (h : scanFree s t = none) : findAvailableGridPosition s t = ⟨0, 0⟩ := by
  unfold findAvailableGridPosition
  rw [h]
  rfl

theorem findNearestValidPosition_of_some {s : State} {t : Terrain} {prev q : GridPos}
    (h : nearestScan s t prev = some q) : findNearestValidPosition s t prev = q := by
  unfold findNearestValidPosition
  rw [h]
  rfl

theorem findNearestValidPosition_of_none {s : State} {t : Terrain} {prev : GridPos}
    (h : nearestScan s t prev = none) :
    findNearestValidPosition s t prev = findAvailableGridPosition s t := by
  unfold findNearestValidPosition
  rw [h]
  rfl

theorem resolveAfterRotation_of_valid {s : State} {t : Terrain} {prev : GridPos}
    (hv : isValidGridPosition s prev.x prev.z (cellsWide s.grid t.dimensions)
      (cellsDeep s.grid t.dimensions) t.id = true) :
    resolveAfterRotation s t prev = prev := by
  simp only [resolveAfterRotation]
  rw [if_pos hv]

theorem resolveAfterRotation_of_invalid {s : State} {t : Terrain} {prev : GridPos}
    (hv : isValidGridPosition s prev.x prev.z (cellsWide s.grid t.dimensions)
      (cellsDeep s.grid t.dimensions) t.id = false) :
    resolveAfterRotation s t prev = findNearestValidPosition s t prev := by
  simp only [resolveAfterRotation]
  rw [hv]
  simp

theorem placeTerrain_eq {s : State} {id : Int} {name : String} {dims : Dimensions}
    {pos : GridPos}
    (hpos : scanFree { s with terrains := s.terrains ++ [newTerrain id name dims] }
      (newTerrain id name dims) = some pos) :
    placeTerrain s id name dims =
      { s with terrains := (s.terrains ++
          [updateTerrainPosition s.grid
            { newTerrain id name dims with gridPosition := pos }]) } := by
  simp only [placeTerrain]
  rw [findAvailableGridPosition_of_some hpos]

/-! ### Invariant preservation -/

theorem disjoint_all_of_occupied_false {s : State} {ex : Int} (tnew : Terrain)
    (hocc : isPositionOccupied s tnew.gridPosition.x tnew.gridPosition.z
      (cellsWide s.grid tnew.dimensions) (cellsDeep s.grid tnew.dimensions) ex = false) :
    ∀ b ∈ s.terrains, b.id ≠ ex → rectDisjoint s.grid tnew b := by
  intro b hb hbne
  exact rectDisjoint_of_noOverlapTest (isPositionOccupied_eq_false.mp hocc b hb hbne)

theorem commit_replaceFirst {s : State} {tid : Int} {tnew : Terrain}
    (hI : Invariants s)
    (hid : tnew.id = tid)
    (hbx : tnew.gridPosition.x + cellsWide s.grid tnew.dimensions ≤ s.grid.size)
    (hbz : tnew.gridPosition.z + cellsDeep s.grid tnew.dimensions ≤ s.grid.size)
    (hocc : ∀ b ∈ s.terrains, b.id ≠ tid → rectDisjoint s.grid tnew b) :
    Invariants { s with terrains :=
      (replaceFirst (fun a => decide (a.id = tid)) tnew s.terrains) } := by
  obtain ⟨hN, hP, hU⟩ := hI
  refine ⟨?_, ?_, ?_⟩
  · show ((replaceFirst (fun a => decide (a.id = tid)) tnew s.terrains).map Terrain.id).Nodup
    rw [map_id_replaceFirst fun a ha => hid.trans (of_decide_eq_true ha).symm]
    exact hN
  · exact pairwise_replaceFirst hN hP hid hocc
  · intro b hb
    rcases mem_replaceFirst hb with rfl | hbl
    · exact ⟨hbx, hbz⟩
    · exact hU b hbl

theorem resolveAfterRotation_valid {s : State} {t : Terrain} {prev : GridPos}
    (hok : isValidGridPosition s prev.x prev.z (cellsWide s.grid t.dimensions)
        (cellsDeep s.grid t.dimensions) t.id = true ∨
      (nearestScan s t prev).isSome = true ∨ (scanFree s t).isSome = true) :
    (resolveAfterRotation s t prev).x + cellsWide s.grid t.dimensions ≤ s.grid.size ∧
    (resolveAfterRotation s t prev).z + cellsDeep s.grid t.dimensions ≤ s.grid.size ∧
    isPositionOccupied s (resolveAfterRotation s t prev).x
      (resolveAfterRotation s t prev).z (cellsWide s.grid t.dimensions)
      (cellsDeep s.grid t.dimensions) t.id = false := by
  by_cases hv : isValidGridPosition s prev.x prev.z (cellsWide s.grid t.dimensions)
      (cellsDeep s.grid t.dimensions) t.id = true
  · rw [resolveAfterRotation_of_valid hv]
    exact isValidGridPosition_eq_true.mp hv
  · have hv2 : isValidGridPosition s prev.x prev.z (cellsWide s.grid t.dimensions)
        (cellsDeep s.grid t.dimensions) t.id = false := by
      simpa using hv
    rw [resolveAfterRotation_of_invalid hv2]
    cases hne : nearestScan s t prev with
    | some q =>
      rw [findNearestValidPosition_of_some hne]
      exact isValidGridPosition_eq_true.mp (nearestScan_some hne).2
    | none =>
      rw [findNearestValidPosition_of_none hne]
      cases hsf : scanFree s t with
      | some p =>
        rw [findAvailableGridPosition_of_some hsf]
        obtain ⟨hmem, hocc⟩ := scanFree_some hsf
        have hb := mem_scanCandidates.mp hmem
        exact ⟨by omega, by omega, hocc⟩
      | none =>
        rcases hok with h | h | h
        · exact absurd h hv
        · rw [hne] at h; simp at h
        · rw [hsf] at h; simp at h

theorem tryMove_preserves {s : State} {tid gx gz : Int} (hI : Invariants s) :
    Invariants (tryMove s tid gx gz) := by
  cases hf : s.terrains.find? (fun t => decide (t.id = tid)) with
  | none =>
    rw [tryMove_none hf]
    exact hI
  | some sel =>
    have htid : sel.id = tid := by
      have h1 := List.find?_some hf
      simpa using h1
    by_cases hv : isValidGridPosition s gx gz (cellsWide s.grid sel.dimensions)
        (cellsDeep s.grid sel.dimensions) sel.id = true
    · rw [tryMove_some_valid hf hv]
      obtain ⟨hbx, hbz, hocc⟩ := isValidGridPosition_eq_true.mp hv
      refine commit_replaceFirst hI ?_ ?_ ?_ ?_
      · simpa using htid
      · simpa using hbx
      · simpa using hbz
      · intro b hb hbne
        have hdis := disjoint_all_of_occupied_false
          (updateTerrainPosition s.grid { sel with gridPosition := ⟨gx, gz⟩ })
          (by simpa using hocc)
        exact hdis b hb fun h => hbne (h.trans htid)
    · rw [tryMove_some_invalid hf (by simpa using hv)]
      exact hI

theorem rotateTerrain_preserves {s : State} {tid : Int} (hI : Invariants s)
    (hok : opOk s (.rotate tid) = true) :
    Invariants (rotateTerrain s tid) := by
  cases hf : s.terrains.find? (fun t => decide (t.id = tid)) with
  | none =>
    rw [rotateTerrain_none hf]
    exact hI
  | some terrain =>
    rw [rotateTerrain_some hf]
    have htid : terrain.id = tid := by
      have h1 := List.find?_some hf
      simpa using h1
    simp only [opOk, hf, Bool.or_eq_true] at hok
    rw [or_assoc] at hok
    have hres := resolveAfterRotation_valid hok
    refine commit_replaceFirst hI ?_ ?_ ?_ ?_
    · simpa using htid
    · simpa using hres.1
    · simpa using hres.2.1
    · intro b hb hbne
      have hbin : b ∈ (replaceFirst (fun t => decide (t.id = tid))
          (rotatedTerrain terrain) s.terrains) :=
        mem_replaceFirst_of_neg hb (decide_eq_false hbne)
      have htest := isPositionOccupied_eq_false.mp hres.2.2 b hbin
        (fun h => hbne ((h : b.id = (rotatedTerrain terrain).id).trans htid))
      exact rectDisjoint_of_noOverlapTest htest

theorem placeTerrain_preserves {s : State} {id : Int} {name : String} {dims : Dimensions}
    (hI : Invariants s) (hfresh : ∀ t ∈ s.terrains, t.id ≠ id)
    (hscan : (scanFree { s with terrains := s.terrains ++ [newTerrain id name dims] }
      (newTerrain id name dims)).isSome = true) :
    Invariants (placeTerrain s id name dims) := by
  obtain ⟨hN, hP, hU⟩ := hI
  obtain ⟨pos, hpos⟩ := Option.isSome_iff_exists.mp hscan
  rw [placeTerrain_eq hpos]
  obtain ⟨hmem, hocc⟩ := scanFree_some hpos
  have hrange := mem_scanCandidates.mp hmem
  have hx : pos.x ≤ s.grid.size - cellsWide s.grid dims := hrange.1.2
  have hz : pos.z ≤ s.grid.size - cellsDeep s.grid dims := hrange.2.2
  refine ⟨?_, ?_, ?_⟩
  · show ((s.terrains ++ [updateTerrainPosition s.grid
        { newTerrain id name dims with gridPosition := pos }]).map Terrain.id).Nodup
    rw [List.map_append, List.nodup_append]
    refine ⟨hN, by simp, ?_⟩
    intro a ha
    simp only [List.map_cons, List.map_nil, List.mem_singleton, List.mem_map] at ha ⊢
    obtain ⟨t, ht, rfl⟩ := ha
    simpa using hfresh t ht
  · show (s.terrains ++ [updateTerrainPosition s.grid
        { newTerrain id name dims with gridPosition := pos }]).Pairwise (rectDisjoint s.grid)
    rw [List.pairwise_append]
    refine ⟨hP, List.pairwise_singleton _ _, ?_⟩
    intro a ha b hb
    rw [List.mem_singleton] at hb
    subst hb
    refine rectDisjoint_symm (rectDisjoint_of_noOverlapTest ?_)
    have htest := isPositionOccupied_eq_false.mp hocc a (List.mem_append_left _ ha)
      (hfresh a ha)
    simpa using htest
  · intro b hb
    rcases List.mem_append.mp hb with h1 | h1
    · exact hU b h1
    · rw [List.mem_singleton] at h1
      subst h1
      constructor
      · show pos.x + cellsWide s.grid dims ≤ s.grid.size
        omega
      · show pos.z + cellsDeep s.grid dims ≤ s.grid.size
        omega

theorem applyOp_preserves {s : State} {op : Op} (hI : Invariants s)
    (hok : opOk s op = true) : Invariants (applyOp s op) := by
  cases op with
  | place id name dims =>
    simp only [opOk, Bool.and_eq_true, decide_eq_true_eq] at hok
    exact placeTerrain_preserves hI hok.1 hok.2
  | move tid gx gz => exact tryMove_preserves hI
  | rotate tid => exact rotateTerrain_preserves hI hok

theorem applyOps_preserves : ∀ (ops : List Op) (s : State), Invariants s →
    runOk s ops = true → Invariants (applyOps s ops) := by
  intro ops
  induction ops with
  | nil => intro s hI _; exact hI
  | cons op ops ih =>
    intro s hI hok
    simp only [runOk, Bool.and_eq_true] at hok
    exact ih (applyOp s op) (applyOp_preserves hI hok.1) hok.2

/-! ### Commit tracking lemmas -/

theorem find?_tryMove {s : State} {terrainId gridX gridZ : Int} {sel : Terrain}
    (hf : s.terrains.find? (fun t => decide (t.id = terrainId)) = some sel)
    (hv : isValidGridPosition s gridX gridZ (cellsWide s.grid sel.dimensions)
      (cellsDeep s.grid sel.dimensions) sel.id = true) :
    (tryMove s terrainId gridX gridZ).terrains.find?
        (fun t => decide (t.id = terrainId)) =
      some (updateTerrainPosition s.grid { sel with gridPosition := ⟨gridX, gridZ⟩ }) := by
  have htid : sel.id = terrainId := by
    have h1 := List.find?_some hf
    simpa using h1
  rw [tryMove_some_valid hf hv]
  exact find?_replaceFirst (by simp [htid]) hf

theorem find?_rotateTerrain {s : State} {terrainId : Int} {terrain : Terrain}
    (hf : s.terrains.find? (fun t => decide (t.id = terrainId)) = some terrain) :
    (rotateTerrain s terrainId).terrains.find? (fun t => decide (t.id = terrainId)) =
      some (updateTerrainPosition s.grid
        { rotatedTerrain terrain with gridPosition :=
            (resolveAfterRotation
              { s with terrains := (replaceFirst (fun t => decide (t.id = terrainId))
                  (rotatedTerrain terrain) s.terrains) }
              (rotatedTerrain terrain) terrain.gridPosition) }) := by
  have htid : terrain.id = terrainId := by
    have h1 := List.find?_some hf
    simpa using h1
  rw [rotateTerrain_some hf]
  exact find?_replaceFirst (by simp [htid]) hf

theorem tryMove_grid {s : State} {tid gx gz : Int} :
    (tryMove s tid gx gz).grid = s.grid := by
  unfold tryMove
  cases s.terrains.find? (fun t => decide (t.id = tid)) with
  | none => rfl
  | some sel =>
    simp only
    split <;> rfl

/-! ### Claim theorems -/

/-- C1: over any sequence of placements, drag moves (committed only when
`isValidGridPosition` accepts them, rejected moves being no-ops) and
rotations started from a state satisfying the invariants, the resulting
registry satisfies NO-OVERLAP and UPPER-BOUND provided no operation hit the
documented degenerate fallback; and the placement fallback can occur only
when every position of the scanned range is occupied. -/
theorem c1_run_invariants (s : State) (ops : List Op) (hI : Invariants s) :
    (runOk s ops = true →
      NoOverlap (applyOps s ops) ∧ UpperBound (applyOps s ops)) ∧
    (∀ (s1 : State) (t : Terrain), scanFree s1 t = none →
      ∀ x z : Int,
        -s1.grid.size ≤ x → x ≤ s1.grid.size - cellsWide s1.grid t.dimensions →
        -s1.grid.size ≤ z → z ≤ s1.grid.size - cellsDeep s1.grid t.dimensions →
        isPositionOccupied s1 x z (cellsWide s1.grid t.dimensions)
          (cellsDeep s1.grid t.dimensions) t.id = true) := by
  constructor
  · intro hok
    have h := applyOps_preserves ops s hI hok
    exact ⟨h.2.1, h.2.2⟩
  · intro s1 t hnone x z h1 h2 h3 h4
    exact scanFree_none hnone ⟨x, z⟩ (mem_scanCandidates.mpr ⟨⟨h1, h2⟩, ⟨h3, h4⟩⟩)

theorem c1_run_invariants_witness :
    Invariants exA ∧ runOk exA exRunOps = true ∧
      NoOverlap (applyOps exA exRunOps) ∧ UpperBound (applyOps exA exRunOps) := by
  have hI : Invariants exA :=
    ⟨show (exA.terrains.map Terrain.id).Nodup by decide, List.Pairwise.nil,
      by intro t ht; cases ht⟩
  have hok : runOk exA exRunOps = true := by decide
  have h := (c1_run_invariants exA exRunOps hI).1 hok
  exact ⟨hI, hok, h.1, h.2⟩

/-- C3: `findAvailableGridPosition` performs a row-major scan, z ascending
over the inclusive range from -grid.size to grid.size - cellsDeep and x
ascending over the analogous range: whenever some in-range cell is free,
the result is free, in range, and least in scan order among all free
in-range cells; when every in-range cell is occupied the fallback (0,0) is
returned even if it overlaps; and on the empty default grid a terrain of
width 15 and depth 5 occupies 2-by-1 cells and is placed at (-10,-10). -/
theorem c3_scan_order :
    (∀ (s : State) (t : Terrain) (q : GridPos),
      -s.grid.size ≤ q.x → q.x ≤ s.grid.size - cellsWide s.grid t.dimensions →
      -s.grid.size ≤ q.z → q.z ≤ s.grid.size - cellsDeep s.grid t.dimensions →
      isPositionOccupied s q.x q.z (cellsWide s.grid t.dimensions)
        (cellsDeep s.grid t.dimensions) t.id = false →
      (-s.grid.size ≤ (findAvailableGridPosition s t).x ∧
        (findAvailableGridPosition s t).x ≤
          s.grid.size - cellsWide s.grid t.dimensions ∧
        -s.grid.size ≤ (findAvailableGridPosition s t).z ∧
        (findAvailableGridPosition s t).z ≤
          s.grid.size - cellsDeep s.grid t.dimensions) ∧
      isPositionOccupied s (findAvailableGridPosition s t).x
        (findAvailableGridPosition s t).z (cellsWide s.grid t.dimensions)
        (cellsDeep s.grid t.dimensions) t.id = false ∧
      gridLexLE (findAvailableGridPosition s t) q) ∧
    (∀ (s : State) (t : Terrain),
      (∀ q : GridPos,
        -s.grid.size ≤ q.x → q.x ≤ s.grid.size - cellsWide s.grid t.dimensions →
        -s.grid.size ≤ q.z → q.z ≤ s.grid.size - cellsDeep s.grid t.dimensions →
        isPositionOccupied s q.x q.z (cellsWide s.grid t.dimensions)
          (cellsDeep s.grid t.dimensions) t.id = true) →
      findAvailableGridPosition s t = ⟨0, 0⟩) ∧
    (cellsWide exA.grid exATerrain.dimensions = 2 ∧
      cellsDeep exA.grid exATerrain.dimensions = 1 ∧
      findAvailableGridPosition exA exATerrain = ⟨-10, -10⟩) := by
  refine ⟨?_, ?_, by decide, by decide, by decide⟩
  · intro s t q hx1 hx2 hz1 hz2 hfree
    cases hsf : scanFree s t with
    | none =>
      have := scanFree_none hsf q (mem_scanCandidates.mpr ⟨⟨hx1, hx2⟩, ⟨hz1, hz2⟩⟩)
      rw [hfree] at this
      cases this
    | some r =>
      rw [findAvailableGridPosition_of_some hsf]
      obtain ⟨hmem, hocc⟩ := scanFree_some hsf
      have hb := mem_scanCandidates.mp hmem
      refine ⟨⟨hb.1.1, hb.1.2, hb.2.1, hb.2.2⟩, hocc, ?_⟩
      have hsf2 := hsf
      simp only [scanFree] at hsf2
      have hmin := find?_min pairwise_scanCandidates hsf2 q
        (mem_scanCandidates.mpr ⟨⟨hx1, hx2⟩, ⟨hz1, hz2⟩⟩) (by simp [hfree])
      rcases hmin with rfl | hlt
      · exact Or.inr ⟨rfl, le_refl _⟩
      · rcases hlt with h | h
        · exact Or.inl h
        · exact Or.inr ⟨h.1, le_of_lt h.2⟩
  · intro s t hall
    have hnone : scanFree s t = none := by
      refine scanFree_eq_none fun p hp => ?_
      have hb := mem_scanCandidates.mp hp
      exact hall p hb.1.1 hb.1.2 hb.2.1 hb.2.2
    exact findAvailableGridPosition_of_none hnone

theorem c3_scan_order_witness :
    gridLexLE (findAvailableGridPosition exA exATerrain) ⟨-10, -10⟩ ∧
      findAvailableGridPosition exA exATerrain = ⟨-10, -10⟩ :=
  ⟨(c3_scan_order.1 exA exATerrain ⟨-10, -10⟩ (by decide) (by decide) (by decide)
      (by decide) (by decide)).2.2, by decide⟩

/-- C4: a drag-move candidate rejected by `isValidGridPosition` (out of
upper bound or overlapping another terrain, the dragged terrain itself
excluded) is not committed: the whole state, hence the dragged terrain and
every other terrain, is left exactly as before the attempt. -/
theorem c4_rejected_move_unchanged (s : State) (terrainId gridX gridZ : Int)
    (sel : Terrain)
    (hf : s.terrains.find? (fun t => decide (t.id = terrainId)) = some sel)
    (hv : isValidGridPosition s gridX gridZ (cellsWide s.grid sel.dimensions)
      (cellsDeep s.grid sel.dimensions) sel.id = false) :
    tryMove s terrainId gridX gridZ = s :=
  tryMove_some_invalid hf hv

theorem c4_rejected_move_unchanged_witness :
    tryMove exB 2 1 0 = exB ∧
      isValidGridPosition exB 1 0 2 2 2 = false ∧
      (tryMove exB 2 1 0).terrains.map (fun t => t.gridPosition) =
        [⟨0, 0⟩, ⟨2, 0⟩] :=
  ⟨c4_rejected_move_unchanged exB 2 1 0
      { newTerrain 2 "t2" ⟨20, 20, 0⟩ with gridPosition := ⟨2, 0⟩ }
      (by decide) (by decide),
    by decide, by decide⟩

/-- C5: the overlap test used by occupancy checking has closed-open
interval semantics: for positive sizes it reports no overlap exactly when
the two closed-open cell rectangles share no integer point, and two
rectangles merely touching along an edge always pass the test. -/
theorem c5_closed_open_semantics :
    (∀ x z w d tx tz tw td : Int, 0 < w → 0 < d → 0 < tw → 0 < td →
      (noOverlapTest x z w d tx tz tw td = true ↔
        ∀ px pz : Int, ¬((x ≤ px ∧ px < x + w ∧ z ≤ pz ∧ pz < z + d) ∧
          (tx ≤ px ∧ px < tx + tw ∧ tz ≤ pz ∧ pz < tz + td)))) ∧
    (∀ x z w d tz tw td : Int, noOverlapTest x z w d (x + w) tz tw td = true) ∧
    (∀ x z w d tx tw : Int, noOverlapTest x z w d tx (z + d) tw 7 = true) := by
  refine ⟨?_, ?_, ?_⟩
  · intro x z w d tx tz tw td hw hd htw htd
    constructor
    · intro h px pz hc
      simp only [noOverlapTest, Bool.or_eq_true, decide_eq_true_eq] at h
      omega
    · intro h
      by_contra hne
      rw [Bool.not_eq_true] at hne
      simp only [noOverlapTest, Bool.or_eq_false_iff, decide_eq_false_iff_not,
        not_le] at hne
      exact h (max x tx) (max z tz) (by omega)
  · intro x z w d tz tw td
    simp [noOverlapTest]
  · intro x z w d tx tw
    simp [noOverlapTest]

theorem c5_closed_open_semantics_witness :
    ¬(((0 : Int) ≤ 0 ∧ (0 : Int) < 0 + 1 ∧ (0 : Int) ≤ 0 ∧ (0 : Int) < 0 + 1) ∧
      ((2 : Int) ≤ 0 ∧ (0 : Int) < 2 + 1 ∧ (0 : Int) ≤ 0 ∧ (0 : Int) < 0 + 1)) :=
  (c5_closed_open_semantics.1 0 0 1 1 2 0 1 1 (by decide) (by decide) (by decide)
    (by decide)).mp (by decide) 0 0

/-- C6 counterexample: the code applies no minimum clamp: a terrain with an
empty bounding box gets cellsWide and cellsDeep equal to 0, and placement
over a registry whose cell (-10,-10) is covered by an existing 2-by-2
terrain still returns (-10,-10), a position that the claimed 1-by-1
clamped footprint would find occupied. -/
theorem c6_counterexample :
    cellsWide exC.grid exCTerrain.dimensions = 0 ∧
    cellsDeep exC.grid exCTerrain.dimensions = 0 ∧
    findAvailableGridPosition exC exCTerrain = ⟨-10, -10⟩ ∧
    isPositionOccupied exC (-10) (-10) 1 1 exCTerrain.id = true := by
  exact ⟨by decide, by decide, by decide, by decide⟩

/-- C6 amended: no minimum clamp is applied: a nonpositive width or depth
yields a nonpositive cell count which placement uses as-is, and a zero-size
(0-by-0) rectangle is reported occupied exactly at positions strictly
inside the interior of some other terrain on both axes, so it passes
through positions that a 1-cell footprint would find occupied. -/
theorem c6_amended_no_clamp :
    (∀ (g : GridConfig) (d : Dimensions), 0 < g.cellSize → d.width ≤ 0 →
      cellsWide g d ≤ 0) ∧
    (∀ (g : GridConfig) (d : Dimensions), 0 < g.cellSize → d.depth ≤ 0 →
      cellsDeep g d ≤ 0) ∧
    (∀ (s : State) (x z ex : Int),
      isPositionOccupied s x z 0 0 ex = true ↔
        ∃ t ∈ s.terrains, t.id ≠ ex ∧
          t.gridPosition.x < x ∧
          x < t.gridPosition.x + cellsWide s.grid t.dimensions ∧
          t.gridPosition.z < z ∧
          z < t.gridPosition.z + cellsDeep s.grid t.dimensions) := by
  refine ⟨?_, ?_, ?_⟩
  · intro g d hc hw
    rw [cellsWide_eq]
    refine Int.ceil_le.mpr ?_
    push_cast
    exact div_nonpos_of_nonpos_of_nonneg hw hc.le
  · intro g d hc hd
    rw [cellsDeep_eq]
    refine Int.ceil_le.mpr ?_
    push_cast
    exact div_nonpos_of_nonpos_of_nonneg hd hc.le
  · intro s x z ex
    constructor
    · intro h
      obtain ⟨t, ht, hne, htest⟩ := isPositionOccupied_eq_true.mp h
      refine ⟨t, ht, hne, ?_⟩
      simp only [noOverlapTest, Bool.or_eq_false_iff, decide_eq_false_iff_not,
        not_le] at htest
      omega
    · rintro ⟨t, ht, hne, h1, h2, h3, h4⟩
      refine isPositionOccupied_eq_true.mpr ⟨t, ht, hne, ?_⟩
      simp only [noOverlapTest, Bool.or_eq_false_iff, decide_eq_false_iff_not,
        not_le]
      omega

theorem c6_amended_no_clamp_witness :
    cellsWide exC.grid exCTerrain.dimensions ≤ 0 ∧
      isPositionOccupied exC (-9) (-9) 0 0 2 = true :=
  ⟨c6_amended_no_clamp.1 exC.grid exCTerrain.dimensions (by decide) (by decide),
    (c6_amended_no_clamp.2.2 exC (-9) (-9) 2).mpr
      ⟨{ newTerrain 1 "b" ⟨20, 20, 0⟩ with gridPosition := ⟨-10, -10⟩ },
        by decide, by decide, by decide, by decide, by decide, by decide⟩⟩

/-- C7: the operations rotate, focus and remove are no-ops for a terrain id
absent from the registry: none of them throws, the registry is unchanged,
and centerOnTerrain performs no camera retarget. -/
theorem c7_unknown_id_noop (s : State) (terrainId : Int)
    (habs : ∀ t ∈ s.terrains, t.id ≠ terrainId) :
    rotateTerrain s terrainId = s ∧
    centerOnTerrain s terrainId = (s, false) ∧
    removeTerrain s terrainId = s := by
  have hf : s.terrains.find? (fun t => decide (t.id = terrainId)) = none :=
    List.find?_eq_none.mpr fun t ht => by simp [habs t ht]
  have hfi : s.terrains.findIdx? (fun t => decide (t.id = terrainId)) = none := by
    rw [List.findIdx?_eq_none_iff]
    intro t ht
    simp [habs t ht]
  refine ⟨rotateTerrain_none hf, ?_, removeTerrain_none hfi⟩
  unfold centerOnTerrain
  rw [hf]

theorem c7_unknown_id_noop_witness :
    rotateTerrain exC 5 = exC ∧ centerOnTerrain exC 5 = (exC, false) ∧
      removeTerrain exC 5 = exC :=
  c7_unknown_id_noop exC 5 (by decide)

/-- C2: the post-rotation position resolution applied to the terrain with
already-swapped footprint keeps the previous position whenever it is still
valid (excluding the terrain itself); otherwise it is the expanding-radius
scan around the previous position: the result is valid and of minimal
Chebyshev distance among valid candidates within the bound, and when no
candidate within the bound is valid it degrades to the semantics of
`findAvailableGridPosition`; `rotateTerrain` commits exactly this resolved
position (`findNearestValidPosition` itself is modelled from the spec, the
source calling it without defining it). -/
theorem c2_rotation_resolution :
    (∀ (s : State) (terrain : Terrain) (prev : GridPos),
      isValidGridPosition s prev.x prev.z (cellsWide s.grid terrain.dimensions)
        (cellsDeep s.grid terrain.dimensions) terrain.id = true →
      resolveAfterRotation s terrain prev = prev) ∧
    (∀ (s : State) (terrain : Terrain) (prev q : GridPos),
      chebDist q prev ≤ (4 * s.grid.size).toNat →
      isValidGridPosition s q.x q.z (cellsWide s.grid terrain.dimensions)
        (cellsDeep s.grid terrain.dimensions) terrain.id = true →
      isValidGridPosition s (resolveAfterRotation s terrain prev).x
        (resolveAfterRotation s terrain prev).z (cellsWide s.grid terrain.dimensions)
        (cellsDeep s.grid terrain.dimensions) terrain.id = true ∧
      chebDist (resolveAfterRotation s terrain prev) prev ≤ chebDist q prev) ∧
    (∀ (s : State) (terrain : Terrain) (prev : GridPos),
      (∀ q : GridPos, chebDist q prev ≤ (4 * s.grid.size).toNat →
        isValidGridPosition s q.x q.z (cellsWide s.grid terrain.dimensions)
          (cellsDeep s.grid terrain.dimensions) terrain.id = false) →
      resolveAfterRotation s terrain prev = findAvailableGridPosition s terrain) ∧
    (∀ (s : State) (terrainId : Int) (terrain : Terrain),
      s.terrains.find? (fun t => decide (t.id = terrainId)) = some terrain →
      (rotateTerrain s terrainId).terrains.find? (fun t => decide (t.id = terrainId)) =
        some (updateTerrainPosition s.grid
          { rotatedTerrain terrain with gridPosition :=
              (resolveAfterRotation
                { s with terrains := (replaceFirst (fun t => decide (t.id = terrainId))
                    (rotatedTerrain terrain) s.terrains) }
                (rotatedTerrain terrain) terrain.gridPosition) })) := by
  have hdist0 : ∀ prev : GridPos, chebDist prev prev = 0 := by
    intro prev
    simp [chebDist]
  refine ⟨?_, ?_, ?_, ?_⟩
  · intro s terrain prev hv
    exact resolveAfterRotation_of_valid hv
  · intro s terrain prev q hq hqv
    by_cases hv : isValidGridPosition s prev.x prev.z
        (cellsWide s.grid terrain.dimensions) (cellsDeep s.grid terrain.dimensions)
        terrain.id = true
    · rw [resolveAfterRotation_of_valid hv]
      refine ⟨hv, ?_⟩
      rw [hdist0]
      exact Nat.zero_le _
    · have hv2 : isValidGridPosition s prev.x prev.z
          (cellsWide s.grid terrain.dimensions) (cellsDeep s.grid terrain.dimensions)
          terrain.id = false := by
        simpa using hv
      rw [resolveAfterRotation_of_invalid hv2]
      cases hne : nearestScan s terrain prev with
      | some r =>
        rw [findNearestValidPosition_of_some hne]
        exact ⟨(nearestScan_some hne).2, nearestScan_min hne hq hqv⟩
      | none =>
        have := nearestScan_isSome hq hqv
        rw [hne] at this
        cases this
  · intro s terrain prev hall
    have hv2 : isValidGridPosition s prev.x prev.z
        (cellsWide s.grid terrain.dimensions) (cellsDeep s.grid terrain.dimensions)
        terrain.id = false := by
      refine hall prev ?_
      rw [hdist0]
      exact Nat.zero_le _
    rw [resolveAfterRotation_of_invalid hv2,
      findNearestValidPosition_of_none (nearestScan_eq_none hall)]
  · intro s terrainId terrain hf
    exact find?_rotateTerrain hf

theorem c2_rotation_resolution_witness :
    resolveAfterRotation exA exATerrain ⟨0, 0⟩ = ⟨0, 0⟩ :=
  c2_rotation_resolution.1 exA exATerrain ⟨0, 0⟩ (by decide)

/-- C8: rotating the terrain found under a given id four times in
succession restores its rotation (for any rotation in the half-open
interval from 0 to a full turn, here scaled by pi, as produced by the
rotation operation itself) and its width and depth, while the grid
position may end up different, as the concrete relocation run on the
2-cell grid shows. -/
theorem c8_rotation_reversibility :
    (∀ (s : State) (terrainId : Int) (terrain : Terrain),
      s.terrains.find? (fun t => decide (t.id = terrainId)) = some terrain →
      0 ≤ terrain.rotation → terrain.rotation < 2 →
      ∃ terrain4 : Terrain,
        (rotateTerrain (rotateTerrain (rotateTerrain (rotateTerrain s terrainId)
            terrainId) terrainId) terrainId).terrains.find?
            (fun t => decide (t.id = terrainId)) = some terrain4 ∧
        terrain4.rotation = terrain.rotation ∧
        terrain4.dimensions.width = terrain.dimensions.width ∧
        terrain4.dimensions.depth = terrain.dimensions.depth) ∧
    (rotateTerrain (rotateTerrain (rotateTerrain (rotateTerrain exD 1) 1) 1)
        1).terrains.map (fun t => t.gridPosition) ≠
      exD.terrains.map (fun t => t.gridPosition) := by
  constructor
  · intro s terrainId terrain hf h0 h2
    have hf1 := find?_rotateTerrain hf
    have hf2 := find?_rotateTerrain hf1
    have hf3 := find?_rotateTerrain hf2
    have hf4 := find?_rotateTerrain hf3
    refine ⟨_, hf4, ?_, ?_, ?_⟩
    · simp only [updateTerrainPosition_rotation, rotatedTerrain_rotation]
      exact rot_four_steps h0 h2
    · simp
    · simp
  · decide

theorem c8_rotation_reversibility_witness :
    ∃ terrain4 : Terrain,
      (rotateTerrain (rotateTerrain (rotateTerrain (rotateTerrain exD 1) 1) 1)
          1).terrains.find? (fun t => decide (t.id = 1)) = some terrain4 ∧
      terrain4.rotation = 0 ∧ terrain4.dimensions.width = 10 ∧
      terrain4.dimensions.depth = 20 := by
  obtain ⟨t4, h1, h2, h3, h4⟩ := c8_rotation_reversibility.1 exD 1
    { newTerrain 1 "d" ⟨10, 20, 0⟩ with gridPosition := ⟨1, 0⟩ }
    (by decide) (by decide) (by decide)
  exact ⟨t4, h1, h2.trans rfl, h3.trans rfl, h4.trans rfl⟩

/-- C9: the world-position recomputation that follows every position or
rotation commit centers the real-valued footprint in its occupied cell
block: per axis the world position equals gridPosition times cellSize plus
half the difference between the cell block extent and the dimension, where
the cell count is the ceiling of dimension over cellSize, so the footprint
midpoint coincides with the cell-block midpoint; and both an accepted drag
move and a rotation commit store exactly this recomputed terrain. -/
theorem c9_world_position_centering :
    (∀ (g : GridConfig) (t : Terrain),
      (updateTerrainPosition g t).worldX =
        (t.gridPosition.x : Rat) * g.cellSize +
          ((⌈t.dimensions.width / g.cellSize⌉ : Rat) * g.cellSize -
            t.dimensions.width) / 2 ∧
      (updateTerrainPosition g t).worldZ =
        (t.gridPosition.z : Rat) * g.cellSize +
          ((⌈t.dimensions.depth / g.cellSize⌉ : Rat) * g.cellSize -
            t.dimensions.depth) / 2 ∧
      (updateTerrainPosition g t).worldX + t.dimensions.width / 2 =
        ((t.gridPosition.x : Rat) + (cellsWide g t.dimensions : Rat) / 2) *
          g.cellSize ∧
      (updateTerrainPosition g t).worldZ + t.dimensions.depth / 2 =
        ((t.gridPosition.z : Rat) + (cellsDeep g t.dimensions : Rat) / 2) *
          g.cellSize) ∧
    (∀ (s : State) (terrainId gridX gridZ : Int) (sel : Terrain),
      s.terrains.find? (fun t => decide (t.id = terrainId)) = some sel →
      isValidGridPosition s gridX gridZ (cellsWide s.grid sel.dimensions)
        (cellsDeep s.grid sel.dimensions) sel.id = true →
      (tryMove s terrainId gridX gridZ).terrains.find?
          (fun t => decide (t.id = terrainId)) =
        some (updateTerrainPosition s.grid
          { sel with gridPosition := ⟨gridX, gridZ⟩ })) ∧
    (∀ (s : State) (terrainId : Int) (terrain : Terrain),
      s.terrains.find? (fun t => decide (t.id = terrainId)) = some terrain →
      (rotateTerrain s terrainId).terrains.find?
          (fun t => decide (t.id = terrainId)) =
        some (updateTerrainPosition s.grid
          { rotatedTerrain terrain with gridPosition :=
              (resolveAfterRotation
                { s with terrains := (replaceFirst (fun t => decide (t.id = terrainId))
                    (rotatedTerrain terrain) s.terrains) }
                (rotatedTerrain terrain) terrain.gridPosition) })) := by
  refine ⟨?_, ?_, ?_⟩
  · intro g t
    refine ⟨?_, ?_, ?_, ?_⟩
    · simp only [updateTerrainPosition, cellsWide_eq]
    · simp only [updateTerrainPosition, cellsDeep_eq]
    · simp only [updateTerrainPosition]
      ring
    · simp only [updateTerrainPosition]
      ring
  · intro s terrainId gridX gridZ sel hf hv
    exact find?_tryMove hf hv
  · intro s terrainId terrain hf
    exact find?_rotateTerrain hf

theorem c9_world_position_centering_witness :
    (updateTerrainPosition gridTen exATerrain).worldX + (15 : Rat) / 2 =
      ((0 : Rat) + (cellsWide gridTen exATerrain.dimensions : Rat) / 2) * 10 :=
  (c9_world_position_centering.1 gridTen exATerrain).2.2.1

/-- C10: a drag-move event, accepted or rejected, changes at most the
dragged terrain and only its grid position and world position: the grid
configuration is untouched, no terrain is added or removed, every terrain
keeps its id, name, dimensions, rotation and visibility, and every terrain
other than the dragged one is kept entirely. -/
theorem c10_drag_frame (s : State) (terrainId gridX gridZ : Int) :
    (tryMove s terrainId gridX gridZ).grid = s.grid ∧
    (tryMove s terrainId gridX gridZ).terrains.length = s.terrains.length ∧
    List.Forall₂ (dragFrame terrainId) s.terrains
      (tryMove s terrainId gridX gridZ).terrains := by
  have hframe : List.Forall₂ (dragFrame terrainId) s.terrains
      (tryMove s terrainId gridX gridZ).terrains := by
    cases hf : s.terrains.find? (fun t => decide (t.id = terrainId)) with
    | none =>
      rw [tryMove_none hf]
      exact forall2_self fun x _ => ⟨rfl, rfl, rfl, rfl, rfl, fun _ => rfl⟩
    | some sel =>
      have htid : sel.id = terrainId := by
        have h1 := List.find?_some hf
        simpa using h1
      by_cases hv : isValidGridPosition s gridX gridZ
          (cellsWide s.grid sel.dimensions) (cellsDeep s.grid sel.dimensions)
          sel.id = true
      · rw [tryMove_some_valid hf hv]
        refine forall2_replaceFirst (fun x => ⟨rfl, rfl, rfl, rfl, rfl, fun _ => rfl⟩)
          ?_ hf
        exact ⟨by simp, by simp, by simp, by simp, by simp,
          fun hne => absurd htid hne⟩
      · rw [tryMove_some_invalid hf (by simpa using hv)]
        exact forall2_self fun x _ => ⟨rfl, rfl, rfl, rfl, rfl, fun _ => rfl⟩
  exact ⟨tryMove_grid, (List.Forall₂.length_eq hframe).symm, hframe⟩

end MapApp
